import Mathlib

/-!
# Shade agent framework: shallow embedding and verification

This file embeds the NEAR smart contract of the shade-agent-framework
repository (the `shade-contract-template` crate, with the earlier
`agent-template` iteration embedded separately) and proves or refutes the
frozen behavioural claims about it.

Modelling conventions:
* `near_sdk::store::IterableSet` is modelled as a `List` without duplicates;
  `insert` appends to the back when the element is absent, and `remove`
  performs the SDK's swap-remove (the last element is moved into the removed
  slot), exactly as the backing `Vector` does.
* `near_sdk::store::IterableMap` is modelled as an association list with
  unique keys; removal is modelled as filtering out the key.  The only place
  iteration order of the agents map is observable is the `get_agents` view,
  which no claim mentions, so the order abstraction is sound here.
* A contract method is a function `Env → args → Contract → Except ContractError
  (Contract × List Event × α)`.  A `require!`/`panic!` in the Rust source is
  an `Except.error`; the NEAR runtime reverts every state write and every log
  of a receipt that panics, which `commit` makes explicit (on error the
  pre-call state is kept).
* Machine integers (`u64` timestamps, `u128` balances) are modelled as `Nat`;
  none of the embedded code performs wrapping arithmetic.
-/

deriving instance DecidableEq for Except

namespace Shade

/-- Index of the first occurrence of `a`, as the SDK's lookup map yields it. -/
def findIdxOf {α : Type} [DecidableEq α] (a : α) : List α → Option Nat
  | [] => none
  | x :: xs => if x = a then some 0 else (findIdxOf a xs).map (· + 1)

/-- `Vector::swap_remove`: move the last element into slot `i`, then pop. -/
def swapRemove {α : Type} (xs : List α) (i : Nat) : List α :=
  match xs.getLast? with
  | none => []
  | some b => (xs.set i b).dropLast

/-- `IterableSet::insert`: append to the backing vector when absent. -/
def isetInsert {α : Type} [DecidableEq α] (xs : List α) (x : α) : List α :=
  if x ∈ xs then xs else xs ++ [x]

/-- `IterableSet::remove`: swap-remove the element's slot; returns whether the
element was present, with the updated set. -/
def isetRemove {α : Type} [DecidableEq α] (xs : List α) (x : α) :
    Bool × List α :=
  match findIdxOf x xs with
  | none => (false, xs)
  | some i => (true, swapRemove xs i)

/-- `IterableMap::get`: value of the first (with unique keys: only) entry
for the key. -/
def mapGet {κ β : Type} [DecidableEq κ] (m : List (κ × β)) (k : κ) :
    Option β :=
  match m with
  | [] => none
  | kv :: m' => if kv.1 = k then some kv.2 else mapGet m' k

/-- `IterableMap::insert`: overwrite the key's entry in place when present,
append otherwise. -/
def mapInsert {κ β : Type} [DecidableEq κ] (m : List (κ × β)) (k : κ)
    (v : β) : List (κ × β) :=
  match m with
  | [] => [(k, v)]
  | kv :: m' => if kv.1 = k then (k, v) :: m' else kv :: mapInsert m' k v

/-- Entries remaining after `IterableMap::remove` (order abstracted: the SDK
swap-removes the key's slot, which no embedded view observes). -/
def mapRemoveList {κ β : Type} [DecidableEq κ] (m : List (κ × β)) (k : κ) :
    List (κ × β) :=
  match m with
  | [] => []
  | kv :: m' =>
      if kv.1 = k then mapRemoveList m' k else kv :: mapRemoveList m' k

/-- `IterableMap::remove`: the removed value (if any) and remaining entries. -/
def mapRemoveKey {κ β : Type} [DecidableEq κ] (m : List (κ × β)) (k : κ) :
    Option β × List (κ × β) :=
  (mapGet m k, mapRemoveList m k)

/-- `shade_attestation::measurements::Measurements`: the four 48-byte RTMRs. -/
structure Measurements where
  mrtd : List Nat
  rtmr0 : List Nat
  rtmr1 : List Nat
  rtmr2 : List Nat
deriving DecidableEq, Repr

/-- `Measurements::default()`: all-zero registers. -/
def Measurements.default : Measurements :=
  { mrtd := List.replicate 48 0
    rtmr0 := List.replicate 48 0
    rtmr1 := List.replicate 48 0
    rtmr2 := List.replicate 48 0 }

/-- `shade_attestation::measurements::FullMeasurements` (the contract stores
its hex wrapper `FullMeasurementsHex`, an equality-preserving re-encoding). -/
structure FullMeasurements where
  rtmrs : Measurements
  key_provider_event_digest : List Nat
  app_compose_hash_payload : List Nat
deriving DecidableEq, Repr

/-- `FullMeasurements::default()`: the all-zero sentinel bundle. -/
def FullMeasurements.default : FullMeasurements :=
  { rtmrs := Measurements.default
    key_provider_event_digest := List.replicate 48 0
    app_compose_hash_payload := List.replicate 32 0 }

/-- `type Ppid = HexBytes<16>`: a 16-byte platform identifier. -/
abbrev Ppid := List Nat

/-- NEAR account identifiers. -/
abbrev AccountId := String

/-- `events::AgentRemovalReason` (declared in `events.rs`; the variants are
exactly the ones constructed in `helpers.rs` and `lib.rs`). -/
inductive AgentRemovalReason where
  | ExpiredAttestation
  | InvalidMeasurements
  | InvalidPpid
  | NotWhitelistedForLocal
  | ManualRemoval
deriving DecidableEq, Repr

/-- `Agent`: the stored per-account record (`lib.rs`). -/
structure Agent where
  measurements : FullMeasurements
  ppid : Ppid
  valid_until_ms : Nat
deriving DecidableEq, Repr

/-- `events::Event`: the two events emitted by the embedded methods. -/
inductive Event where
  | AgentRegistered (account_id : AccountId) (measurements : FullMeasurements)
      (ppid : Ppid) (current_time_ms : Nat) (valid_until_ms : Nat)
  | AgentRemoved (account_id : AccountId)
      (reasons : List AgentRemovalReason)
deriving DecidableEq, Repr

/-- One constructor per distinct `require!`/`panic!`/`expect` message in the
embedded sources. -/
inductive ContractError where
  | NotOwner
  | MeasurementsNotApproved
  | PpidNotApproved
  | AgentNotRegistered
  | InsufficientDeposit
  | NotSupportedForTee
  | AgentNotWhitelistedForLocal
  | AgentNotWhitelisted
  | AccountNotImplicit
  | AttestationVerificationFailed
  | DefaultMeasurementsNotApproved
deriving DecidableEq, Repr

/-- The host environment values a call reads (`near_sdk::env`). -/
structure Env where
  predecessor_account_id : AccountId
  block_timestamp_ms : Nat
  attached_deposit : Nat
  storage_byte_cost : Nat
deriving DecidableEq, Repr

/-- `Contract` state of `shade-contract-template/src/lib.rs`. -/
structure Contract where
  requires_tee : Bool
  attestation_expiration_time_ms : Nat
  owner_id : AccountId
  mpc_contract_id : AccountId
  approved_measurements : List FullMeasurements
  approved_ppids : List Ppid
  agents : List (AccountId × Agent)
  whitelisted_agents_for_local : List AccountId
deriving DecidableEq, Repr

/-- Result of one method call: error (the receipt panics and every write and
log is reverted) or the updated state, the emitted events, and a value. -/
abbrev CallResult (α : Type) := Except ContractError (Contract × List Event × α)

/-- NEAR's commit semantics: a panicking receipt leaves the pre-call state. -/
def commit {α : Type} (c : Contract) : CallResult α → Contract
  | .ok (c', _, _) => c'
  | .error _ => c

/-- `helpers.rs::require_owner`. -/
def require_owner (env : Env) (c : Contract) : Except ContractError Unit :=
  if env.predecessor_account_id = c.owner_id then .ok () else .error .NotOwner

/-- `lib.rs::update_attestation_expiration_time`. -/
def update_attestation_expiration_time (env : Env)
    (attestation_expiration_time_ms : Nat) (c : Contract) : CallResult Unit :=
  match require_owner env c with
  | .error e => .error e
  | .ok () =>
      .ok ({ c with attestation_expiration_time_ms }, [], ())

/-- `lib.rs::update_owner_id`. -/
def update_owner_id (env : Env) (owner_id : AccountId) (c : Contract) :
    CallResult Unit :=
  match require_owner env c with
  | .error e => .error e
  | .ok () => .ok ({ c with owner_id }, [], ())

/-- `lib.rs::update_mpc_contract_id`. -/
def update_mpc_contract_id (env : Env) (mpc_contract_id : AccountId)
    (c : Contract) : CallResult Unit :=
  match require_owner env c with
  | .error e => .error e
  | .ok () => .ok ({ c with mpc_contract_id }, [], ())

/-- `lib.rs::approve_measurements`. -/
def approve_measurements (env : Env) (measurements : FullMeasurements)
    (c : Contract) : CallResult Unit :=
  match require_owner env c with
  | .error e => .error e
  | .ok () =>
      .ok ({ c with approved_measurements :=
              isetInsert c.approved_measurements measurements }, [], ())

/-- `lib.rs::remove_measurements`. -/
def remove_measurements (env : Env) (measurements : FullMeasurements)
    (c : Contract) : CallResult Unit :=
  match require_owner env c with
  | .error e => .error e
  | .ok () =>
      match isetRemove c.approved_measurements measurements with
      | (false, _) => .error .MeasurementsNotApproved
      | (true, s) => .ok ({ c with approved_measurements := s }, [], ())

/-- `lib.rs::approve_ppids`: insert each id in order. -/
def approve_ppids (env : Env) (ppids : List Ppid) (c : Contract) :
    CallResult Unit :=
  match require_owner env c with
  | .error e => .error e
  | .ok () =>
      .ok ({ c with approved_ppids := ppids.foldl isetInsert c.approved_ppids },
           [], ())

/-- The loop body of `lib.rs::remove_ppids`: remove each id in order,
aborting on the first absent one. -/
def removePpidsLoop (s : List Ppid) : List Ppid →
    Except ContractError (List Ppid)
  | [] => .ok s
  | id :: rest =>
      match isetRemove s id with
      | (false, _) => .error .PpidNotApproved
      | (true, s') => removePpidsLoop s' rest

/-- `lib.rs::remove_ppids`. -/
def remove_ppids (env : Env) (ppids : List Ppid) (c : Contract) :
    CallResult Unit :=
  match require_owner env c with
  | .error e => .error e
  | .ok () =>
      match removePpidsLoop c.approved_ppids ppids with
      | .error e => .error e
      | .ok s => .ok ({ c with approved_ppids := s }, [], ())

/-- `lib.rs::remove_agent`. -/
def remove_agent (env : Env) (account_id : AccountId) (c : Contract) :
    CallResult Unit :=
  match require_owner env c with
  | .error e => .error e
  | .ok () =>
      match mapRemoveKey c.agents account_id with
      | (none, _) => .error .AgentNotRegistered
      | (some _, agents') =>
          .ok ({ c with agents := agents' },
               [Event.AgentRemoved account_id [.ManualRemoval]], ())

/-- `lib.rs::whitelist_agent_for_local`. -/
def whitelist_agent_for_local (env : Env) (account_id : AccountId)
    (c : Contract) : CallResult Unit :=
  if c.requires_tee then .error .NotSupportedForTee
  else
    match require_owner env c with
    | .error e => .error e
    | .ok () =>
        .ok ({ c with whitelisted_agents_for_local :=
                isetInsert c.whitelisted_agents_for_local account_id }, [], ())

/-- `lib.rs::remove_agent_from_whitelist_for_local`. -/
def remove_agent_from_whitelist_for_local (env : Env) (account_id : AccountId)
    (c : Contract) : CallResult Unit :=
  if c.requires_tee then .error .NotSupportedForTee
  else
    match require_owner env c with
    | .error e => .error e
    | .ok () =>
        match isetRemove c.whitelisted_agents_for_local account_id with
        | (false, _) => .error .AgentNotWhitelistedForLocal
        | (true, s) => .ok ({ c with whitelisted_agents_for_local := s }, [], ())

/-- Bytes of storage charged for one registration (`lib.rs`). -/
def STORAGE_BYTES_TO_REGISTER : Nat := 486

/-- `lib.rs::register_agent`.  The attestation verifier lives in
`attestation.rs`, which is not part of the sources; following the
specification (§4.1) it is a side-effect-free function of the environment and
the current state producing either the extracted `(measurements, ppid)` or an
error, so it is taken here as an explicit function argument `verify`. -/
def register_agent
    (verify : Env → Contract → Except ContractError (FullMeasurements × Ppid))
    (env : Env) (c : Contract) : CallResult Bool :=
  let storage_cost := env.storage_byte_cost * STORAGE_BYTES_TO_REGISTER
  if env.attached_deposit < storage_cost then .error .InsufficientDeposit
  else
    match verify env c with
    | .error e => .error e
    | .ok (measurements, ppid) =>
        let valid_until_ms := env.block_timestamp_ms +
          c.attestation_expiration_time_ms
        let agents' := mapInsert c.agents env.predecessor_account_id
          (Agent.mk measurements ppid valid_until_ms)
        .ok ({ c with agents := agents' },
             [Event.AgentRegistered env.predecessor_account_id measurements
                ppid env.block_timestamp_ms valid_until_ms],
             true)

/-- The reason list built by `helpers.rs::require_valid_agent`, in push
order: expiry, measurement approval, platform-id approval, then (local mode
only) whitelist membership. -/
def validationReasons (env : Env) (c : Contract) (agent : Agent) :
    List AgentRemovalReason :=
  (if agent.valid_until_ms < env.block_timestamp_ms
     then [AgentRemovalReason.ExpiredAttestation] else [])
  ++ (if agent.measurements ∈ c.approved_measurements then []
      else [AgentRemovalReason.InvalidMeasurements])
  ++ (if agent.ppid ∈ c.approved_ppids then []
      else [AgentRemovalReason.InvalidPpid])
  ++ (if !c.requires_tee ∧ env.predecessor_account_id ∉
        c.whitelisted_agents_for_local
      then [AgentRemovalReason.NotWhitelistedForLocal] else [])

/-- `helpers.rs::require_valid_agent`.  On an invalid agent the record is
removed and the removal event emitted in the current (successful) receipt;
the returned `some reasons` is the `Promise` scheduled to fail the request in
the next block, so the removal and its event persist. -/
def require_valid_agent (env : Env) (c : Contract) :
    CallResult (Option (List AgentRemovalReason)) :=
  match mapGet c.agents env.predecessor_account_id with
  | none => .error .AgentNotRegistered
  | some agent =>
      let reasons := validationReasons env c agent
      if reasons.isEmpty then .ok (c, [], none)
      else
        .ok ({ c with agents :=
                (mapRemoveKey c.agents env.predecessor_account_id).2 },
             [Event.AgentRemoved env.predecessor_account_id reasons],
             some reasons)

/-- Outcome of `request_signature`: either the delegated MPC call was
dispatched, or the agent was revoked and the returned promise fails the
request. -/
inductive SignatureOutcome where
  | dispatched (path payload key_type : String)
  | failedInvalidAgent (reasons : List AgentRemovalReason)
deriving DecidableEq, Repr

/-- Modelled from the spec: `chainsig.rs` (the signature dispatcher wrapping
`request_signature`) is not among the sources.  Per §4.4/§6 and the
integration tests, `request_signature` first runs the authorization gate
`require_valid_agent` (embedded above from `helpers.rs`); when the gate
returns the failing promise the call ends with it, otherwise the delegated
signer call is dispatched. -/
def request_signature (env : Env) (path payload key_type : String)
    (c : Contract) : CallResult SignatureOutcome :=
  match require_valid_agent env c with
  | .error e => .error e
  | .ok (c', evs, some reasons) =>
      .ok (c', evs, .failedInvalidAgent reasons)
  | .ok (c', evs, none) =>
      .ok (c', evs, .dispatched path payload key_type)

/-- `views.rs::AgentView`. -/
structure AgentView where
  account_id : AccountId
  measurements : FullMeasurements
  measurements_are_approved : Bool
  ppid : Ppid
  ppid_is_approved : Bool
  valid_until_ms : Nat
  timestamp_is_valid : Bool
  is_valid : Bool
deriving DecidableEq, Repr

/-- `views.rs::get_agent` (`&self`: a pure read, no state output). -/
def get_agent (env : Env) (account_id : AccountId) (c : Contract) :
    Option AgentView :=
  (mapGet c.agents account_id).map fun agent =>
    { account_id
      measurements := agent.measurements
      measurements_are_approved :=
        decide (agent.measurements ∈ c.approved_measurements)
      ppid := agent.ppid
      ppid_is_approved := decide (agent.ppid ∈ c.approved_ppids)
      valid_until_ms := agent.valid_until_ms
      timestamp_is_valid :=
        decide (agent.valid_until_ms > env.block_timestamp_ms)
      is_valid :=
        decide (agent.measurements ∈ c.approved_measurements)
        && decide (agent.ppid ∈ c.approved_ppids)
        && decide (agent.valid_until_ms > env.block_timestamp_ms) }

/-- `views.rs::get_approved_measurements` (offset/limit pagination). -/
def get_approved_measurements (from_index limit : Option Nat)
    (c : Contract) : List FullMeasurements :=
  let fro := from_index.getD 0
  let lim := limit.getD c.approved_measurements.length
  ((c.approved_measurements.drop fro).take lim)

end Shade

namespace AgentTemplate

open Shade (AccountId FullMeasurements Ppid Env ContractError mapGet mapInsert)

/-- `agent-template/shade-contract-template/src/lib.rs` contract state (the
earlier iteration of the template).  An agent entry with value `none` is
whitelisted but not yet registered. -/
structure Contract where
  owner_id : AccountId
  approved_measurements : List FullMeasurements
  agents : List (AccountId × Option FullMeasurements)
  requires_tee : Bool
  mpc_contract_id : AccountId
  approved_ppids : List Ppid
deriving DecidableEq, Repr

/-- `char::is_ascii_hexdigit`. -/
def isAsciiHexDigit (ch : Char) : Bool :=
  ch.isDigit || ('a' ≤ ch && ch ≤ 'f') || ('A' ≤ ch && ch ≤ 'F')

/-- The implicit-account check of `register_agent`: 64 characters, each an
ASCII hex digit and not uppercase (`char::is_uppercase` agrees with
`Char.isUpper` on ASCII hex digits). -/
def isImplicitAccount (s : String) : Bool :=
  s.length == 64 && s.toList.all (fun ch => isAsciiHexDigit ch && !ch.isUpper)

/-- Value of one hex digit (`hex::decode` on checked input). -/
def hexVal (ch : Char) : Nat :=
  if ch.isDigit then ch.toNat - 48
  else if 'a' ≤ ch then ch.toNat - 87
  else ch.toNat - 55

/-- `hex::decode`: consecutive digit pairs to bytes. -/
def hexDecodePairs : List Char → List Nat
  | c1 :: c2 :: rest => (hexVal c1 * 16 + hexVal c2) :: hexDecodePairs rest
  | _ => []

/-- The expected report data of `register_agent`: the 32 decoded account-id
bytes padded with 32 zero bytes to 64 bytes. -/
def reportDataBytes (s : String) : List Nat :=
  hexDecodePairs s.toList ++ List.replicate 32 0

/-- `agent-template` `lib.rs::register_agent`.  `attestation.verify` lives in
the `shade-attestation` crate whose verifier source is not present; following
the specification (§4.1) it is a pure function of the expected report data,
the time in seconds, and the expected measurement/ppid sets, taken here as
the explicit argument `verify`. -/
def register_agent
    (verify : List Nat → Nat → List FullMeasurements → List Ppid →
      Except ContractError FullMeasurements)
    (env : Env) (c : Contract) : Except ContractError (Contract × Bool) :=
  match mapGet c.agents env.predecessor_account_id with
  | none => .error .AgentNotWhitelisted
  | some _ =>
      let verified : Except ContractError FullMeasurements :=
        if c.requires_tee then
          if isImplicitAccount env.predecessor_account_id then
            verify (reportDataBytes env.predecessor_account_id)
              (env.block_timestamp_ms / 1000)
              c.approved_measurements c.approved_ppids
          else .error .AccountNotImplicit
        else
          if FullMeasurements.default ∈ c.approved_measurements then
            .ok FullMeasurements.default
          else .error .DefaultMeasurementsNotApproved
      match verified with
      | .error e => .error e
      | .ok m =>
          let agents' := mapInsert c.agents env.predecessor_account_id (some m)
          .ok ({ c with agents := agents' }, true)

/-- An agent-template contract with a whitelisted named account. -/
def cAT : Contract :=
  { owner_id := "owner.near"
    approved_measurements := [FullMeasurements.default]
    agents := [("alice.near", none)]
    requires_tee := true
    mpc_contract_id := "v1.signer"
    approved_ppids := [] }

/-- Environment of the named account `alice.near`. -/
def envAlice : Env :=
  { predecessor_account_id := "alice.near", block_timestamp_ms := 0
    attached_deposit := 0, storage_byte_cost := 0 }

/-- A verifier that accepts with the sentinel bundle. -/
def verifyA : List Nat → Nat → List FullMeasurements → List Ppid →
    Except ContractError FullMeasurements :=
  fun _ _ _ _ => .ok FullMeasurements.default

/-- A verifier that always rejects. -/
def verifyB : List Nat → Nat → List FullMeasurements → List Ppid →
    Except ContractError FullMeasurements :=
  fun _ _ _ _ => .error .AttestationVerificationFailed

end AgentTemplate

namespace Shade
/-! ## Concrete instances used by witnesses and counterexamples -/

/-- The all-zero sentinel bundle. -/
def m0 : FullMeasurements := FullMeasurements.default

/-- A second, distinct measurement bundle. -/
def m1 : FullMeasurements :=
  { FullMeasurements.default with
      app_compose_hash_payload := List.replicate 32 1 }

/-- The all-zero platform id. -/
def p0 : Ppid := List.replicate 16 0

/-- A call environment whose caller is the owner. -/
def envOwner : Env :=
  { predecessor_account_id := "owner.near", block_timestamp_ms := 0
    attached_deposit := 0, storage_byte_cost := 0 }

/-- A call environment whose caller is not the owner. -/
def envStranger : Env :=
  { predecessor_account_id := "mallory.near", block_timestamp_ms := 0
    attached_deposit := 0, storage_byte_cost := 0 }

/-- A TEE-mode contract with one approved bundle and ppid and no agents. -/
def cB : Contract :=
  { requires_tee := true, attestation_expiration_time_ms := 1000
    owner_id := "owner.near", mpc_contract_id := "v1.signer"
    approved_measurements := [m0], approved_ppids := [p0]
    agents := [], whitelisted_agents_for_local := [] }

/-- `cB` with two approved bundles, for the pagination witness. -/
def cTwo : Contract :=
  { requires_tee := true, attestation_expiration_time_ms := 1000
    owner_id := "owner.near", mpc_contract_id := "v1.signer"
    approved_measurements := [m0, m1], approved_ppids := [p0]
    agents := [], whitelisted_agents_for_local := [] }

/-- Environment of agent `agent1` at exactly the record expiry instant. -/
def envA : Env :=
  { predecessor_account_id := "agent1", block_timestamp_ms := 1000
    attached_deposit := 0, storage_byte_cost := 0 }

/-- Environment of agent `agent1` well before the record expiry. -/
def envEarly : Env :=
  { predecessor_account_id := "agent1", block_timestamp_ms := 500
    attached_deposit := 0, storage_byte_cost := 0 }

/-- A contract whose registered agent expires exactly at time 1000. -/
def cBoundary : Contract :=
  { requires_tee := true, attestation_expiration_time_ms := 1000
    owner_id := "owner.near", mpc_contract_id := "v1.signer"
    approved_measurements := [m0], approved_ppids := [p0]
    agents := [("agent1", Agent.mk m0 p0 1000)]
    whitelisted_agents_for_local := [] }

/-- A contract whose registered agent holds an unapproved bundle and an
expired record. -/
def cInv : Contract :=
  { requires_tee := true, attestation_expiration_time_ms := 1000
    owner_id := "owner.near", mpc_contract_id := "v1.signer"
    approved_measurements := [m0], approved_ppids := [p0]
    agents := [("agent1", Agent.mk m1 p0 10)]
    whitelisted_agents_for_local := [] }

/-- Environment of `agent1` well after the record expiry. -/
def envLate : Env :=
  { predecessor_account_id := "agent1", block_timestamp_ms := 5000
    attached_deposit := 0, storage_byte_cost := 0 }

/-- A verifier that accepts with the sentinel bundle and ppid. -/
def verifyOk : Env → Contract →
    Except ContractError (FullMeasurements × Ppid) :=
  fun _ _ => .ok (m0, p0)

/-- An agent environment with an ample storage deposit. -/
def envRich : Env :=
  { predecessor_account_id := "agent2", block_timestamp_ms := 700
    attached_deposit := 100000000, storage_byte_cost := 100 }

/-- An agent environment with no attached deposit. -/
def envPoor : Env :=
  { predecessor_account_id := "agent2", block_timestamp_ms := 700
    attached_deposit := 0, storage_byte_cost := 100 }

/-! ## Lemmas about the embedded store types -/

theorem mem_of_mem_swapRemove {α : Type} {xs : List α} {i : Nat} {x : α}
    (h : x ∈ swapRemove xs i) : x ∈ xs := by
  unfold swapRemove at h
  cases hl : xs.getLast? with
  | none =>
      rw [hl] at h
      cases h
  | some b =>
      rw [hl] at h
      have hx := (List.dropLast_sublist _).mem h
      rcases List.mem_or_eq_of_mem_set hx with h' | h'
      · exact h'
      · subst h'
        exact List.mem_of_getLast?_eq_some hl

theorem findIdxOf_eq_none_of_not_mem {α : Type} [DecidableEq α] {a : α}
    {xs : List α} (h : a ∉ xs) : findIdxOf a xs = none := by
  induction xs with
  | nil => rfl
  | cons x xs ih =>
      have h1 : ¬ x = a := fun hx => h (by rw [hx]; exact List.mem_cons_self a xs)
      have h2 : a ∉ xs := fun hx => h (List.mem_cons_of_mem x hx)
      simp [findIdxOf, h1, ih h2]

theorem findIdxOf_spec {α : Type} [DecidableEq α] {a : α} :
    ∀ {xs : List α} {i : Nat}, findIdxOf a xs = some i →
      ∃ h : i < xs.length, xs.get ⟨i, h⟩ = a := by
  intro xs
  induction xs with
  | nil => intro i h; exact Option.noConfusion h
  | cons x xs ih =>
      intro i h
      by_cases hx : x = a
      · simp only [findIdxOf] at h
        rw [if_pos hx] at h
        cases h
        exact ⟨Nat.succ_pos _, hx⟩
      · simp only [findIdxOf] at h
        rw [if_neg hx] at h
        cases hj : findIdxOf a xs with
        | none => rw [hj] at h; exact Option.noConfusion h
        | some j =>
            rw [hj] at h
            obtain ⟨hlt, hget⟩ := ih hj
            cases Option.some.inj h
            exact ⟨Nat.succ_lt_succ hlt, hget⟩

theorem swapRemove_perm_eraseIdx {α : Type} {xs : List α} {i : Nat}
    (h : i < xs.length) : List.Perm (swapRemove xs i) (xs.eraseIdx i) := by
  have hne : xs ≠ [] := by
    intro hnil; rw [hnil] at h; exact Nat.not_lt_zero _ h
  obtain ⟨ys, b, rfl⟩ : ∃ ys b, xs = ys ++ [b] :=
    ⟨xs.dropLast, xs.getLast hne, (List.dropLast_concat_getLast hne).symm⟩
  have hi : i < ys.length + 1 := by simpa using h
  unfold swapRemove
  rw [List.getLast?_concat]
  show List.Perm (((ys ++ [b]).set i b).dropLast) ((ys ++ [b]).eraseIdx i)
  rcases Nat.lt_or_ge i ys.length with hlt | hge
  · rw [List.set_append_left _ _ hlt, List.dropLast_concat,
      List.eraseIdx_append_of_lt_length hlt,
      List.set_eq_take_cons_drop b hlt, List.eraseIdx_eq_take_drop_succ]
    exact List.perm_middle.trans (List.perm_append_singleton b _).symm
  · have hi' : i = ys.length := Nat.le_antisymm (Nat.lt_succ_iff.mp hi) hge
    subst hi'
    rw [List.set_append_right _ _ (Nat.le_refl _), Nat.sub_self,
      List.eraseIdx_append_of_length_le (Nat.le_refl _), Nat.sub_self]
    simp

theorem perm_split_middle {α : Type} {l l₁ l₂ : List α} {a : α}
    (hsplit : l = l₁ ++ a :: l₂) : List.Perm l (a :: (l₁ ++ l₂)) := by
  subst hsplit
  exact List.perm_middle

theorem perm_cons_eraseIdx {α : Type} {xs : List α} {i : Nat} {a : α}
    (h : i < xs.length) (hget : xs.get ⟨i, h⟩ = a) :
    List.Perm xs (a :: xs.eraseIdx i) := by
  have hdrop : xs.drop i = a :: xs.drop (i + 1) := by
    rw [List.drop_eq_getElem_cons h]
    exact congrArg (fun z => z :: xs.drop (i + 1)) hget
  have hsplit : xs = xs.take i ++ a :: xs.drop (i + 1) := by
    conv_lhs => rw [← List.take_append_drop i xs]
    rw [hdrop]
  rw [List.eraseIdx_eq_take_drop_succ]
  exact perm_split_middle hsplit

theorem isetRemove_of_not_mem {α : Type} [DecidableEq α] {xs : List α}
    {a : α} (h : a ∉ xs) : isetRemove xs a = (false, xs) := by
  unfold isetRemove
  rw [findIdxOf_eq_none_of_not_mem h]

theorem findIdxOf_isSome_of_mem {α : Type} [DecidableEq α] {a : α}
    {xs : List α} (ha : a ∈ xs) : (findIdxOf a xs).isSome := by
  induction xs with
  | nil => cases ha
  | cons x xs ih =>
      by_cases hx : x = a
      · simp [findIdxOf, hx]
      · rcases List.mem_cons.mp ha with h' | h'
        · exact absurd h'.symm hx
        · have := ih h'
          simp only [findIdxOf, if_neg hx]
          cases hj : findIdxOf a xs with
          | none => rw [hj] at this; cases this
          | some j => simp

theorem isetRemove_of_mem {α : Type} [DecidableEq α] {xs : List α} {a : α}
    (ha : a ∈ xs) :
    ∃ t, isetRemove xs a = (true, t) ∧ List.Perm xs (a :: t) := by
  cases hfi : findIdxOf a xs with
  | none =>
      have := findIdxOf_isSome_of_mem ha
      rw [hfi] at this
      cases this
  | some i =>
      obtain ⟨hlt, hget⟩ := findIdxOf_spec hfi
      refine ⟨swapRemove xs i, ?_, ?_⟩
      · unfold isetRemove
        rw [hfi]
      · exact (perm_cons_eraseIdx hlt hget).trans
          (List.Perm.cons a (swapRemove_perm_eraseIdx hlt).symm)

theorem findIdxOf_append_singleton {α : Type} [DecidableEq α] {xs : List α}
    {a : α} (h : a ∉ xs) : findIdxOf a (xs ++ [a]) = some xs.length := by
  induction xs with
  | nil => simp [findIdxOf]
  | cons x xs ih =>
      have h1 : ¬ x = a := fun hx => h (by rw [hx]; exact List.mem_cons_self a xs)
      have h2 : a ∉ xs := fun hx => h (List.mem_cons_of_mem x hx)
      simp [findIdxOf, h1, ih h2]

theorem isetRemove_append_singleton {α : Type} [DecidableEq α] {xs : List α}
    {a : α} (h : a ∉ xs) : isetRemove (xs ++ [a]) a = (true, xs) := by
  have h2 : swapRemove (xs ++ [a]) xs.length = xs := by
    unfold swapRemove
    rw [List.getLast?_concat]
    show (((xs ++ [a]).set xs.length a).dropLast) = xs
    rw [List.set_append_right _ _ (Nat.le_refl _), Nat.sub_self]
    simp
  unfold isetRemove
  rw [findIdxOf_append_singleton h]
  simp [h2]

theorem take_add_split {α : Type} (l : List α) (n m : Nat) :
    l.take (n + m) = l.take n ++ (l.drop n).take m := by
  induction n generalizing l with
  | zero => simp
  | succ n ih =>
      cases l with
      | nil => simp
      | cons x xs =>
          simp only [List.take_succ_cons, List.drop_succ_cons,
            Nat.succ_add, List.cons_append]
          rw [ih]

theorem mapGet_removeList_self {κ β : Type} [DecidableEq κ]
    (m : List (κ × β)) (k : κ) : mapGet (mapRemoveList m k) k = none := by
  induction m with
  | nil => rfl
  | cons kv m ih =>
      by_cases hk : kv.1 = k
      · simpa [mapRemoveList, hk] using ih
      · simp [mapRemoveList, mapGet, hk, ih]

theorem mapGet_removeList_ne {κ β : Type} [DecidableEq κ]
    (m : List (κ × β)) {k k' : κ} (h : k' ≠ k) :
    mapGet (mapRemoveList m k) k' = mapGet m k' := by
  have hkk : ¬ k = k' := fun h2 => h h2.symm
  induction m with
  | nil => rfl
  | cons kv m ih =>
      by_cases hk : kv.1 = k
      · have hk' : ¬ kv.1 = k' := fun h2 => h (h2.symm.trans hk)
        simp [mapRemoveList, mapGet, hk, hk', hkk, ih]
      · by_cases hk2 : kv.1 = k'
        · simp [mapRemoveList, mapGet, hk, hk2, h]
        · simp [mapRemoveList, mapGet, hk, hk2, ih]

theorem mapGet_insert_self {κ β : Type} [DecidableEq κ]
    (m : List (κ × β)) (k : κ) (v : β) :
    mapGet (mapInsert m k v) k = some v := by
  induction m with
  | nil => simp [mapInsert, mapGet]
  | cons kv m ih =>
      by_cases hk : kv.1 = k
      · simp [mapInsert, mapGet, hk]
      · simp [mapInsert, mapGet, hk, ih]

theorem mapGet_insert_ne {κ β : Type} [DecidableEq κ]
    (m : List (κ × β)) {k k' : κ} (v : β) (h : k' ≠ k) :
    mapGet (mapInsert m k v) k' = mapGet m k' := by
  have hkk : ¬ k = k' := fun h2 => h h2.symm
  induction m with
  | nil => simp [mapInsert, mapGet, hkk]
  | cons kv m ih =>
      by_cases hk : kv.1 = k
      · have hk' : ¬ kv.1 = k' := fun h2 => h (h2.symm.trans hk)
        simp [mapInsert, mapGet, hk, hk', hkk]
      · by_cases hk2 : kv.1 = k'
        · simp [mapInsert, mapGet, hk, hk2, h]
        · simp [mapInsert, mapGet, hk, hk2, ih]

/-! ## Helper lemmas about the contract methods -/

theorem require_valid_agent_cases (env : Env) (c : Contract) :
    require_valid_agent env c = .error .AgentNotRegistered ∨
    require_valid_agent env c = .ok (c, [], none) ∨
    ∃ agent, mapGet c.agents env.predecessor_account_id = some agent ∧
      require_valid_agent env c =
        .ok ({ c with agents :=
                mapRemoveList c.agents env.predecessor_account_id },
             [Event.AgentRemoved env.predecessor_account_id
                (validationReasons env c agent)],
             some (validationReasons env c agent)) := by
  cases h : mapGet c.agents env.predecessor_account_id with
  | none => left; simp [require_valid_agent, h]
  | some agent =>
      by_cases he : (validationReasons env c agent).isEmpty
      · right; left; simp [require_valid_agent, h, he]
      · right; right
        refine ⟨agent, rfl, ?_⟩
        simp [require_valid_agent, h, he, mapRemoveKey]

theorem agents_of_update_attestation_expiration_time (env : Env) (t : Nat)
    (c : Contract) :
    (commit c (update_attestation_expiration_time env t c)).agents =
      c.agents := by
  cases h : require_owner env c with
  | error e => simp [update_attestation_expiration_time, commit, h]
  | ok u => simp [update_attestation_expiration_time, commit, h]

theorem agents_of_update_owner_id (env : Env) (o : AccountId) (c : Contract) :
    (commit c (update_owner_id env o c)).agents = c.agents := by
  cases h : require_owner env c with
  | error e => simp [update_owner_id, commit, h]
  | ok u => simp [update_owner_id, commit, h]

theorem agents_of_update_mpc_contract_id (env : Env) (o : AccountId)
    (c : Contract) :
    (commit c (update_mpc_contract_id env o c)).agents = c.agents := by
  cases h : require_owner env c with
  | error e => simp [update_mpc_contract_id, commit, h]
  | ok u => simp [update_mpc_contract_id, commit, h]

theorem agents_of_approve_measurements (env : Env) (m : FullMeasurements)
    (c : Contract) :
    (commit c (approve_measurements env m c)).agents = c.agents := by
  cases h : require_owner env c with
  | error e => simp [approve_measurements, commit, h]
  | ok u => simp [approve_measurements, commit, h]

theorem agents_of_remove_measurements (env : Env) (m : FullMeasurements)
    (c : Contract) :
    (commit c (remove_measurements env m c)).agents = c.agents := by
  cases h : require_owner env c with
  | error e => simp [remove_measurements, commit, h]
  | ok u =>
      cases hr : isetRemove c.approved_measurements m with
      | mk b s => cases b <;> simp [remove_measurements, commit, h, hr]

theorem agents_of_approve_ppids (env : Env) (ps : List Ppid) (c : Contract) :
    (commit c (approve_ppids env ps c)).agents = c.agents := by
  cases h : require_owner env c with
  | error e => simp [approve_ppids, commit, h]
  | ok u => simp [approve_ppids, commit, h]

theorem agents_of_remove_ppids (env : Env) (ps : List Ppid) (c : Contract) :
    (commit c (remove_ppids env ps c)).agents = c.agents := by
  cases h : require_owner env c with
  | error e => simp [remove_ppids, commit, h]
  | ok u =>
      cases hr : removePpidsLoop c.approved_ppids ps with
      | error e => simp [remove_ppids, commit, h, hr]
      | ok s => simp [remove_ppids, commit, h, hr]

theorem agents_of_whitelist_agent_for_local (env : Env) (a : AccountId)
    (c : Contract) :
    (commit c (whitelist_agent_for_local env a c)).agents = c.agents := by
  by_cases ht : c.requires_tee
  · simp [whitelist_agent_for_local, commit, ht]
  · cases h : require_owner env c with
    | error e => simp [whitelist_agent_for_local, commit, ht, h]
    | ok u => simp [whitelist_agent_for_local, commit, ht, h]

theorem agents_of_remove_agent_from_whitelist_for_local (env : Env)
    (a : AccountId) (c : Contract) :
    (commit c (remove_agent_from_whitelist_for_local env a c)).agents =
      c.agents := by
  by_cases ht : c.requires_tee
  · simp [remove_agent_from_whitelist_for_local, commit, ht]
  · cases h : require_owner env c with
    | error e => simp [remove_agent_from_whitelist_for_local, commit, ht, h]
    | ok u =>
        cases hr : isetRemove c.whitelisted_agents_for_local a with
        | mk b s =>
            cases b <;>
              simp [remove_agent_from_whitelist_for_local, commit, ht, h, hr]

theorem agents_of_remove_agent (env : Env) (acc : AccountId) (c : Contract)
    (a : AccountId) :
    mapGet (commit c (remove_agent env acc c)).agents a = mapGet c.agents a ∨
    mapGet (commit c (remove_agent env acc c)).agents a = none := by
  cases h : require_owner env c with
  | error e => left; simp [remove_agent, commit, h]
  | ok u =>
      cases hg : mapGet c.agents acc with
      | none => left; simp [remove_agent, commit, h, mapRemoveKey, hg]
      | some agent =>
          by_cases hak : a = acc
          · right
            subst hak
            simp [remove_agent, commit, h, mapRemoveKey, hg,
              mapGet_removeList_self]
          · left
            simp [remove_agent, commit, h, mapRemoveKey, hg,
              mapGet_removeList_ne _ hak]

theorem agents_of_request_signature (env : Env) (path payload kt : String)
    (c : Contract) (a : AccountId) :
    mapGet (commit c (request_signature env path payload kt c)).agents a =
      mapGet c.agents a ∨
    mapGet (commit c (request_signature env path payload kt c)).agents a =
      none := by
  rcases require_valid_agent_cases env c with h | h | ⟨agent, _, h⟩
  · left; simp [request_signature, commit, h]
  · left; simp [request_signature, commit, h]
  · by_cases hak : a = env.predecessor_account_id
    · right
      subst hak
      simp [request_signature, commit, h, mapGet_removeList_self]
    · left
      simp [request_signature, commit, h, mapGet_removeList_ne _ hak]

theorem removePpidsLoop_error {s ps : List Ppid}
    (hx : ∃ x ∈ ps, x ∉ s) :
    removePpidsLoop s ps = .error .PpidNotApproved := by
  induction ps generalizing s with
  | nil => rcases hx with ⟨x, hx1, _⟩; cases hx1
  | cons id rest ih =>
      rcases hx with ⟨x, hx1, hx2⟩
      by_cases hid : id ∈ s
      · obtain ⟨t, hrem, hperm⟩ := isetRemove_of_mem hid
        simp only [removePpidsLoop, hrem]
        apply ih
        rcases List.mem_cons.mp hx1 with h' | h'
        · subst h'
          exact absurd hid hx2
        · exact ⟨x, h', fun hmem =>
            hx2 (hperm.mem_iff.mpr (List.mem_cons_of_mem id hmem))⟩
      · simp only [removePpidsLoop, isetRemove_of_not_mem hid]

theorem removePpidsLoop_ok {s ps : List Ppid} (hnds : s.Nodup)
    (hndp : ps.Nodup) (hall : ∀ x ∈ ps, x ∈ s) :
    ∃ s', removePpidsLoop s ps = .ok s' ∧ s'.Nodup ∧
      (∀ x, x ∈ s' ↔ x ∈ s ∧ x ∉ ps) := by
  induction ps generalizing s with
  | nil => exact ⟨s, rfl, hnds, by simp⟩
  | cons id rest ih =>
      have hid : id ∈ s := hall id (List.mem_cons_self id rest)
      obtain ⟨t, hrem, hperm⟩ := isetRemove_of_mem hid
      have hcons : (id :: t).Nodup := hperm.nodup_iff.mp hnds
      have hndt : t.Nodup := (List.nodup_cons.mp hcons).2
      have hidt : id ∉ t := (List.nodup_cons.mp hcons).1
      have hallt : ∀ x ∈ rest, x ∈ t := by
        intro x hx
        have hxs : x ∈ s := hall x (List.mem_cons_of_mem _ hx)
        have hxid : x ≠ id := fun h2 =>
          (List.nodup_cons.mp hndp).1 (h2 ▸ hx)
        rcases List.mem_cons.mp (hperm.mem_iff.mp hxs) with h' | h'
        · exact absurd h' hxid
        · exact h'
      obtain ⟨s', hloop, hnd', hmem⟩ :=
        ih hndt (List.nodup_cons.mp hndp).2 hallt
      refine ⟨s', ?_, hnd', ?_⟩
      · simp only [removePpidsLoop, hrem, hloop]
      · intro x
        rw [hmem x]
        constructor
        · rintro ⟨hxt, hxrest⟩
          refine ⟨hperm.mem_iff.mpr (List.mem_cons_of_mem _ hxt), ?_⟩
          intro hmm
          rcases List.mem_cons.mp hmm with h' | h'
          · subst h'
            exact hidt hxt
          · exact hxrest h'
        · rintro ⟨hxs, hxnot⟩
          have hxid : x ≠ id := fun h2 =>
            hxnot (h2 ▸ List.mem_cons_self id rest)
          refine ⟨?_, fun h2 => hxnot (List.mem_cons_of_mem _ h2)⟩
          rcases List.mem_cons.mp (hperm.mem_iff.mp hxs) with h' | h'
          · exact absurd h' hxid
          · exact h'

/-! ## Claims -/

/-- C8: for every offset `n` and limit `m` over a fixed approved-measurements
set, `get_approved_measurements (0, n)` followed by
`get_approved_measurements (n, m)` yields exactly the elements of
`get_approved_measurements (0, n + m)`, with no duplicates (given the set
invariant) and no omissions. -/
theorem c8_pagination_stability (c : Contract) (n m : Nat) :
    get_approved_measurements (some 0) (some n) c ++
        get_approved_measurements (some n) (some m) c =
      get_approved_measurements (some 0) (some (n + m)) c ∧
    (c.approved_measurements.Nodup →
      (get_approved_measurements (some 0) (some n) c ++
        get_approved_measurements (some n) (some m) c).Nodup) := by
  have he : get_approved_measurements (some 0) (some n) c ++
      get_approved_measurements (some n) (some m) c =
      get_approved_measurements (some 0) (some (n + m)) c := by
    show c.approved_measurements.take n ++
        (c.approved_measurements.drop n).take m =
      c.approved_measurements.take (n + m)
    exact (take_add_split _ n m).symm
  refine ⟨he, fun h => ?_⟩
  rw [he]
  show (c.approved_measurements.take (n + m)).Nodup
  exact List.Nodup.sublist (List.take_sublist _ _) h

/-- Witness for C8 at a concrete two-element set. -/
theorem c8_pagination_stability_witness :
    (get_approved_measurements (some 0) (some 1) cTwo ++
      get_approved_measurements (some 1) (some 1) cTwo).Nodup ∧
    get_approved_measurements (some 0) (some 1) cTwo ++
        get_approved_measurements (some 1) (some 1) cTwo =
      get_approved_measurements (some 0) (some 2) cTwo :=
  ⟨(c8_pagination_stability cTwo 1 1).2 (by decide),
   (c8_pagination_stability cTwo 1 1).1⟩

/-- C9: `register_agent` fails with no record created or modified whenever
the attached deposit is below the storage cost (byte cost times 486), for
every verifier outcome and in TEE and local mode alike (the state `c` is
arbitrary). -/
theorem c9_register_agent_requires_deposit
    (verify : Env → Contract → Except ContractError (FullMeasurements × Ppid))
    (env : Env) (c : Contract)
    (h : env.attached_deposit <
      env.storage_byte_cost * STORAGE_BYTES_TO_REGISTER) :
    register_agent verify env c = .error .InsufficientDeposit ∧
    commit c (register_agent verify env c) = c := by
  have h1 : register_agent verify env c = .error .InsufficientDeposit := by
    simp [register_agent, h]
  exact ⟨h1, by rw [h1]; rfl⟩

/-- Witness for C9: a zero deposit fails registration. -/
theorem c9_register_agent_requires_deposit_witness :
    register_agent verifyOk envPoor cB = .error .InsufficientDeposit ∧
    commit cB (register_agent verifyOk envPoor cB) = cB :=
  c9_register_agent_requires_deposit verifyOk envPoor cB (by decide)

/-- C5: every owner-only operation fails with `NotOwner` and leaves the state
unchanged when the caller is not the current owner; `require_owner` accepts
exactly the current owner; and after `update_owner_id new`, the old owner
fails while the new owner succeeds on the same call. -/
theorem c5_owner_only_fail_closed (env : Env) (c : Contract)
    (m : FullMeasurements) (ps : List Ppid) (acc own2 : AccountId) (t : Nat)
    (h : env.predecessor_account_id ≠ c.owner_id) :
    (approve_measurements env m c = .error .NotOwner ∧
      commit c (approve_measurements env m c) = c) ∧
    (remove_measurements env m c = .error .NotOwner ∧
      commit c (remove_measurements env m c) = c) ∧
    (approve_ppids env ps c = .error .NotOwner ∧
      commit c (approve_ppids env ps c) = c) ∧
    (remove_ppids env ps c = .error .NotOwner ∧
      commit c (remove_ppids env ps c) = c) ∧
    (remove_agent env acc c = .error .NotOwner ∧
      commit c (remove_agent env acc c) = c) ∧
    (update_owner_id env own2 c = .error .NotOwner ∧
      commit c (update_owner_id env own2 c) = c) ∧
    (update_mpc_contract_id env acc c = .error .NotOwner ∧
      commit c (update_mpc_contract_id env acc c) = c) ∧
    (update_attestation_expiration_time env t c = .error .NotOwner ∧
      commit c (update_attestation_expiration_time env t c) = c) ∧
    (∀ env2 c2, require_owner env2 c2 = .ok () ↔
      env2.predecessor_account_id = c2.owner_id) ∧
    (∀ envOld envNew new2, envOld.predecessor_account_id = c.owner_id →
      envNew.predecessor_account_id = new2 → new2 ≠ c.owner_id →
      update_owner_id envOld new2 c =
        .ok ({ c with owner_id := new2 }, [], ()) ∧
      approve_measurements envOld m { c with owner_id := new2 } =
        .error .NotOwner ∧
      approve_measurements envNew m { c with owner_id := new2 } =
        .ok ({ c with owner_id := new2, approved_measurements := isetInsert c.approved_measurements m }, [], ())) := by
  have hro : require_owner env c = .error .NotOwner := by
    simp [require_owner, h]
  have mk : ∀ {α : Type} (r : CallResult α), r = .error .NotOwner →
      r = .error .NotOwner ∧ commit c r = c :=
    fun r hr => ⟨hr, by rw [hr]; rfl⟩
  refine ⟨mk _ ?_, mk _ ?_, mk _ ?_, mk _ ?_, mk _ ?_, mk _ ?_, mk _ ?_,
    mk _ ?_, ?_, ?_⟩
  · simp [approve_measurements, hro]
  · simp [remove_measurements, hro]
  · simp [approve_ppids, hro]
  · simp [remove_ppids, hro]
  · simp [remove_agent, hro]
  · simp [update_owner_id, hro]
  · simp [update_mpc_contract_id, hro]
  · simp [update_attestation_expiration_time, hro]
  · intro env2 c2
    by_cases hp : env2.predecessor_account_id = c2.owner_id <;>
      simp [require_owner, hp]
  · intro envOld envNew new2 hOld hNew hne
    have hro1 : require_owner envOld c = .ok () := by
      simp [require_owner, hOld]
    have hne2 : envOld.predecessor_account_id ≠ new2 := by
      rw [hOld]
      exact fun h2 => hne h2.symm
    refine ⟨?_, ?_, ?_⟩
    · simp [update_owner_id, hro1]
    · simp [approve_measurements, require_owner, hne2]
    · simp [approve_measurements, require_owner, hNew]

/-- Witness for C5: a stranger's `approve_measurements` fails unchanged. -/
theorem c5_owner_only_fail_closed_witness :
    approve_measurements envStranger m1 cB = .error .NotOwner ∧
    commit cB (approve_measurements envStranger m1 cB) = cB :=
  (c5_owner_only_fail_closed envStranger cB m1 [p0] "agent1" "alice.near" 5
    (by decide)).1

/-- C7 counterexample: for a bundle that is already approved, approving it
again is a no-op, so the following removal does not restore the
pre-approval state (it deletes the bundle instead). -/
theorem c7_counterexample :
    approve_measurements envOwner m0 cB = .ok (cB, [], ()) ∧
    remove_measurements envOwner m0 cB =
      .ok ({ cB with approved_measurements := [] }, [], ()) ∧
    { cB with approved_measurements := ([] : List FullMeasurements) } ≠
      cB := by
  refine ⟨?_, ?_, ?_⟩ <;> decide

/-- C7 as amended: for every bundle `b` NOT already approved,
`remove_measurements b` after `approve_measurements b` restores the exact
pre-approval state, and removing an unapproved `b` fails with the
not-approved error and performs no mutation. -/
theorem c7_remove_approve_round_trip (env : Env) (c : Contract)
    (b : FullMeasurements) (hown : env.predecessor_account_id = c.owner_id)
    (hb : b ∉ c.approved_measurements) :
    approve_measurements env b c =
      .ok ({ c with approved_measurements :=
              c.approved_measurements ++ [b] }, [], ()) ∧
    remove_measurements env b
        { c with approved_measurements := c.approved_measurements ++ [b] } =
      .ok (c, [], ()) ∧
    remove_measurements env b c = .error .MeasurementsNotApproved ∧
    commit c (remove_measurements env b c) = c := by
  have hro : require_owner env c = .ok () := by simp [require_owner, hown]
  have h3 : remove_measurements env b c = .error .MeasurementsNotApproved := by
    simp [remove_measurements, hro, isetRemove_of_not_mem hb]
  refine ⟨?_, ?_, h3, by rw [h3]; rfl⟩
  · simp [approve_measurements, hro, isetInsert, hb]
  · simp [remove_measurements, require_owner, hown,
      isetRemove_append_singleton hb]

/-- Witness for C7 as amended, at a fresh bundle. -/
theorem c7_remove_approve_round_trip_witness :
    approve_measurements envOwner m1 cB =
      .ok ({ cB with approved_measurements :=
              cB.approved_measurements ++ [m1] }, [], ()) ∧
    remove_measurements envOwner m1
        { cB with approved_measurements :=
            cB.approved_measurements ++ [m1] } =
      .ok (cB, [], ()) ∧
    remove_measurements envOwner m1 cB = .error .MeasurementsNotApproved ∧
    commit cB (remove_measurements envOwner m1 cB) = cB :=
  c7_remove_approve_round_trip envOwner cB m1 (by decide) (by decide)

/-- C4 counterexample: with `p0` approved, every element of the batch
`[p0, p0]` is present in the approved set, yet `remove_ppids` aborts
(the second occurrence is already gone when it is processed). -/
theorem c4_counterexample :
    (∀ x ∈ [p0, p0], x ∈ cB.approved_ppids) ∧
    remove_ppids envOwner [p0, p0] cB = .error .PpidNotApproved := by
  refine ⟨?_, ?_⟩ <;> decide

/-- C4 as amended: if any id of the batch is absent from the approved-ppid
set, the whole call fails and the state is exactly the pre-call state; if
the ids are pairwise distinct and all present, the call succeeds and removes
exactly them. -/
theorem c4_remove_ppids_atomic (env : Env) (c : Contract) (ps : List Ppid)
    (hown : env.predecessor_account_id = c.owner_id) :
    ((∃ x ∈ ps, x ∉ c.approved_ppids) →
      remove_ppids env ps c = .error .PpidNotApproved ∧
      commit c (remove_ppids env ps c) = c) ∧
    (ps.Nodup → c.approved_ppids.Nodup → (∀ x ∈ ps, x ∈ c.approved_ppids) →
      ∃ s, remove_ppids env ps c = .ok ({ c with approved_ppids := s }, [], ()) ∧
        s.Nodup ∧ (∀ x, x ∈ s ↔ x ∈ c.approved_ppids ∧ x ∉ ps)) := by
  have hro : require_owner env c = .ok () := by simp [require_owner, hown]
  constructor
  · intro hx
    have hloop : removePpidsLoop c.approved_ppids ps =
        .error .PpidNotApproved := removePpidsLoop_error hx
    have h1 : remove_ppids env ps c = .error .PpidNotApproved := by
      simp [remove_ppids, hro, hloop]
    exact ⟨h1, by rw [h1]; rfl⟩
  · intro hndp hnds hall
    obtain ⟨s, hloop, hnd, hmem⟩ := removePpidsLoop_ok hnds hndp hall
    refine ⟨s, ?_, hnd, hmem⟩
    simp [remove_ppids, hro, hloop]

/-- Witness for C4 as amended, removing the only approved ppid. -/
theorem c4_remove_ppids_atomic_witness :
    ∃ s, remove_ppids envOwner [p0] cB =
        .ok ({ cB with approved_ppids := s }, [], ()) ∧
      s.Nodup ∧ (∀ x, x ∈ s ↔ x ∈ cB.approved_ppids ∧ x ∉ [p0]) :=
  (c4_remove_ppids_atomic envOwner cB [p0] (by decide)).2
    (by decide) (by decide) (by decide)

/-- C3: when the authorization gate evaluates a registered agent, it checks
expiry (`valid_until < now`), measurement approval, platform-id approval and
(local mode) whitelist membership exhaustively without short-circuiting: an
agent with an unapproved bundle and a passed `valid_until` gets both
`ExpiredAttestation` and `InvalidMeasurements` in the single removal event's
reason list, and the reason list contains exactly the reasons whose
conditions hold. -/
theorem c3_gate_multi_reason (env : Env) (c : Contract) (agent : Agent)
    (hreg : mapGet c.agents env.predecessor_account_id = some agent)
    (hexp : agent.valid_until_ms < env.block_timestamp_ms)
    (hm : agent.measurements ∉ c.approved_measurements) :
    require_valid_agent env c =
      .ok ({ c with agents :=
              mapRemoveList c.agents env.predecessor_account_id },
           [Event.AgentRemoved env.predecessor_account_id
              (validationReasons env c agent)],
           some (validationReasons env c agent)) ∧
    AgentRemovalReason.ExpiredAttestation ∈ validationReasons env c agent ∧
    AgentRemovalReason.InvalidMeasurements ∈ validationReasons env c agent ∧
    (∀ r, r ∈ validationReasons env c agent ↔
      ((r = AgentRemovalReason.ExpiredAttestation ∧
          agent.valid_until_ms < env.block_timestamp_ms) ∨
       (r = AgentRemovalReason.InvalidMeasurements ∧
          agent.measurements ∉ c.approved_measurements) ∨
       (r = AgentRemovalReason.InvalidPpid ∧
          agent.ppid ∉ c.approved_ppids) ∨
       (r = AgentRemovalReason.NotWhitelistedForLocal ∧
          c.requires_tee = false ∧
          env.predecessor_account_id ∉ c.whitelisted_agents_for_local))) := by
  have hmemE : AgentRemovalReason.ExpiredAttestation ∈
      validationReasons env c agent := by
    simp [validationReasons, hexp]
  have hmemM : AgentRemovalReason.InvalidMeasurements ∈
      validationReasons env c agent := by
    simp [validationReasons, hexp, hm]
  have hne : (validationReasons env c agent).isEmpty = false := by
    cases hv : validationReasons env c agent with
    | nil => rw [hv] at hmemE; cases hmemE
    | cons a l => rfl
  refine ⟨?_, hmemE, hmemM, ?_⟩
  · simp [require_valid_agent, hreg, hne, mapRemoveKey]
  · intro r
    by_cases hp : agent.ppid ∈ c.approved_ppids <;>
      by_cases ht : c.requires_tee <;>
      by_cases hw : env.predecessor_account_id ∈
        c.whitelisted_agents_for_local <;>
      cases r <;>
      simp [validationReasons, hexp, hm, hp, ht, hw]

/-- Witness for C3: an expired agent with an unapproved bundle collects both
reasons. -/
theorem c3_gate_multi_reason_witness :
    AgentRemovalReason.ExpiredAttestation ∈
        validationReasons envLate cInv (Agent.mk m1 p0 10) ∧
    AgentRemovalReason.InvalidMeasurements ∈
        validationReasons envLate cInv (Agent.mk m1 p0 10) :=
  let h := c3_gate_multi_reason envLate cInv (Agent.mk m1 p0 10)
    (by decide) (by decide) (by decide)
  ⟨h.2.1, h.2.2.1⟩

/-- C2 counterexample: at the instant `now = valid_until`, with measurements
and ppid approved, `get_agent` reports `is_valid = false` (it requires
`valid_until > now`) while the authorization gate passes the same agent (its
expiry condition is `valid_until < now`), so the view's and the gate's
validity disagree at that timestamp. -/
theorem c2_counterexample :
    (get_agent envA "agent1" cBoundary).map AgentView.is_valid =
      some false ∧
    require_valid_agent envA cBoundary = .ok (cBoundary, [], none) := by
  refine ⟨?_, ?_⟩ <;> decide

/-- C2 as amended: `get_agent` is a pure read whose `is_valid` flag is the
conjunction of measurement approval, ppid approval and `valid_until > now`;
the gate (TEE mode) passes exactly when measurements and ppid are approved
and `¬ (valid_until < now)`; the two agree at every timestamp except
`now = valid_until`, where the view reports invalid and the gate passes. -/
theorem c2_get_agent_vs_gate (env : Env) (c : Contract) (agent : Agent)
    (hreg : mapGet c.agents env.predecessor_account_id = some agent)
    (htee : c.requires_tee = true) :
    (get_agent env env.predecessor_account_id c).map AgentView.is_valid =
      some (decide (agent.measurements ∈ c.approved_measurements) &&
            decide (agent.ppid ∈ c.approved_ppids) &&
            decide (agent.valid_until_ms > env.block_timestamp_ms)) ∧
    (require_valid_agent env c = .ok (c, [], none) ↔
      (agent.measurements ∈ c.approved_measurements ∧
       agent.ppid ∈ c.approved_ppids ∧
       ¬ agent.valid_until_ms < env.block_timestamp_ms)) ∧
    (env.block_timestamp_ms ≠ agent.valid_until_ms →
      ((get_agent env env.predecessor_account_id c).map AgentView.is_valid =
          some true ↔
        require_valid_agent env c = .ok (c, [], none))) := by
  have hview : (get_agent env env.predecessor_account_id c).map
      AgentView.is_valid =
      some (decide (agent.measurements ∈ c.approved_measurements) &&
            decide (agent.ppid ∈ c.approved_ppids) &&
            decide (agent.valid_until_ms > env.block_timestamp_ms)) := by
    simp [get_agent, hreg]
  have hgate : require_valid_agent env c = .ok (c, [], none) ↔
      (agent.measurements ∈ c.approved_measurements ∧
       agent.ppid ∈ c.approved_ppids ∧
       ¬ agent.valid_until_ms < env.block_timestamp_ms) := by
    by_cases hmm : agent.measurements ∈ c.approved_measurements <;>
      by_cases hpp : agent.ppid ∈ c.approved_ppids <;>
      by_cases hex : agent.valid_until_ms < env.block_timestamp_ms <;>
      simp [require_valid_agent, hreg, validationReasons, htee, hmm, hpp,
        hex, mapRemoveKey]
  refine ⟨hview, hgate, fun hneq => ?_⟩
  rw [hview, hgate]
  simp only [Option.some.injEq, Bool.and_eq_true, decide_eq_true_eq]
  constructor
  · rintro ⟨⟨h1, h2⟩, h3⟩
    exact ⟨h1, h2, by omega⟩
  · rintro ⟨h1, h2, h3⟩
    exact ⟨⟨h1, h2⟩, by omega⟩

/-- Witness for C2 as amended, away from the boundary timestamp. -/
theorem c2_get_agent_vs_gate_witness :
    (get_agent envEarly "agent1" cBoundary).map AgentView.is_valid =
        some true ↔
      require_valid_agent envEarly cBoundary = .ok (cBoundary, [], none) :=
  (c2_get_agent_vs_gate envEarly cBoundary (Agent.mk m0 p0 1000)
    (by decide) (by decide)).2.2 (by decide)

/-- C1: a registered agent whose bundle is no longer approved has its next
`request_signature` fail: the call removes the record, emits exactly one
removal event whose reasons contain `InvalidMeasurements`, and returns the
failing promise; every subsequent call by that agent before re-registration
fails with the not-registered error, emits nothing and changes nothing. -/
theorem c1_revocation_sticky (env : Env) (c : Contract) (agent : Agent)
    (path payload kt : String)
    (hreg : mapGet c.agents env.predecessor_account_id = some agent)
    (hm : agent.measurements ∉ c.approved_measurements) :
    request_signature env path payload kt c =
      .ok ({ c with agents :=
              mapRemoveList c.agents env.predecessor_account_id },
           [Event.AgentRemoved env.predecessor_account_id
              (validationReasons env c agent)],
           SignatureOutcome.failedInvalidAgent
             (validationReasons env c agent)) ∧
    AgentRemovalReason.InvalidMeasurements ∈ validationReasons env c agent ∧
    mapGet (mapRemoveList c.agents env.predecessor_account_id)
      env.predecessor_account_id = none ∧
    (∀ (env2 : Env) (p2 pl2 k2 : String),
      env2.predecessor_account_id = env.predecessor_account_id →
      request_signature env2 p2 pl2 k2
          { c with agents :=
              mapRemoveList c.agents env.predecessor_account_id } =
        .error .AgentNotRegistered ∧
      commit
          { c with agents :=
              mapRemoveList c.agents env.predecessor_account_id }
          (request_signature env2 p2 pl2 k2
            { c with agents :=
                mapRemoveList c.agents env.predecessor_account_id }) =
        { c with agents :=
            mapRemoveList c.agents env.predecessor_account_id }) := by
  have hmemM : AgentRemovalReason.InvalidMeasurements ∈
      validationReasons env c agent := by
    by_cases hex : agent.valid_until_ms < env.block_timestamp_ms <;>
      by_cases hp : agent.ppid ∈ c.approved_ppids <;>
      by_cases ht : c.requires_tee <;>
      by_cases hw : env.predecessor_account_id ∈
        c.whitelisted_agents_for_local <;>
      simp [validationReasons, hex, hm, hp, ht, hw]
  have hne : (validationReasons env c agent).isEmpty = false := by
    cases hv : validationReasons env c agent with
    | nil => rw [hv] at hmemM; cases hmemM
    | cons a l => rfl
  refine ⟨?_, hmemM, mapGet_removeList_self _ _, ?_⟩
  · simp [request_signature, require_valid_agent, hreg, hne, mapRemoveKey]
  · intro env2 p2 pl2 k2 hpred
    have hnone : mapGet (mapRemoveList c.agents env.predecessor_account_id)
        env2.predecessor_account_id = none := by
      rw [hpred]
      exact mapGet_removeList_self _ _
    have h1 : request_signature env2 p2 pl2 k2
        { c with agents :=
            mapRemoveList c.agents env.predecessor_account_id } =
        .error .AgentNotRegistered := by
      simp [request_signature, require_valid_agent, hnone]
    exact ⟨h1, by rw [h1]; rfl⟩

/-- Witness for C1: the de-approved agent `agent1` is revoked on its next
request and is gone afterwards. -/
theorem c1_revocation_sticky_witness :
    request_signature envLate "p" "x" "Ecdsa" cInv =
      .ok ({ cInv with agents :=
              mapRemoveList cInv.agents envLate.predecessor_account_id },
           [Event.AgentRemoved envLate.predecessor_account_id
              (validationReasons envLate cInv (Agent.mk m1 p0 10))],
           SignatureOutcome.failedInvalidAgent
             (validationReasons envLate cInv (Agent.mk m1 p0 10))) ∧
    mapGet (mapRemoveList cInv.agents envLate.predecessor_account_id)
      envLate.predecessor_account_id = none :=
  let h := c1_revocation_sticky envLate cInv (Agent.mk m1 p0 10) "p" "x"
    "Ecdsa" (by decide) (by decide)
  ⟨h.1, h.2.2.1⟩

/-- C6: every successful `register_agent` stores (overwriting any previous
record) the caller's record with `valid_until = now + expiration duration`,
touches no other account's record, and no other contract method ever
changes a stored record except by deleting it. -/
theorem c6_register_sets_valid_until
    (verify : Env → Contract → Except ContractError (FullMeasurements × Ppid))
    (env : Env) (c : Contract) (m : FullMeasurements) (p : Ppid)
    (hver : verify env c = .ok (m, p))
    (hdep : ¬ env.attached_deposit <
      env.storage_byte_cost * STORAGE_BYTES_TO_REGISTER) :
    register_agent verify env c =
      .ok ({ c with agents := mapInsert c.agents env.predecessor_account_id (Agent.mk m p (env.block_timestamp_ms + c.attestation_expiration_time_ms)) },
        [Event.AgentRegistered env.predecessor_account_id m p
          env.block_timestamp_ms
          (env.block_timestamp_ms + c.attestation_expiration_time_ms)],
        true) ∧
    mapGet (commit c (register_agent verify env c)).agents
        env.predecessor_account_id =
      some (Agent.mk m p (env.block_timestamp_ms +
        c.attestation_expiration_time_ms)) ∧
    (∀ a, a ≠ env.predecessor_account_id →
      mapGet (commit c (register_agent verify env c)).agents a =
        mapGet c.agents a) ∧
    (∀ (env2 : Env) (a acc own2 : AccountId) (m2 : FullMeasurements)
        (ps2 : List Ppid) (t2 : Nat) (p2 pl2 k2 : String),
      (commit c (update_attestation_expiration_time env2 t2 c)).agents =
        c.agents ∧
      (commit c (update_owner_id env2 own2 c)).agents = c.agents ∧
      (commit c (update_mpc_contract_id env2 own2 c)).agents = c.agents ∧
      (commit c (approve_measurements env2 m2 c)).agents = c.agents ∧
      (commit c (remove_measurements env2 m2 c)).agents = c.agents ∧
      (commit c (approve_ppids env2 ps2 c)).agents = c.agents ∧
      (commit c (remove_ppids env2 ps2 c)).agents = c.agents ∧
      (commit c (whitelist_agent_for_local env2 acc c)).agents = c.agents ∧
      (commit c (remove_agent_from_whitelist_for_local env2 acc c)).agents =
        c.agents ∧
      (mapGet (commit c (remove_agent env2 acc c)).agents a =
          mapGet c.agents a ∨
        mapGet (commit c (remove_agent env2 acc c)).agents a = none) ∧
      (mapGet (commit c (request_signature env2 p2 pl2 k2 c)).agents a =
          mapGet c.agents a ∨
        mapGet (commit c (request_signature env2 p2 pl2 k2 c)).agents a =
          none)) := by
  have h1 : register_agent verify env c =
      .ok ({ c with agents := mapInsert c.agents env.predecessor_account_id (Agent.mk m p (env.block_timestamp_ms + c.attestation_expiration_time_ms)) },
        [Event.AgentRegistered env.predecessor_account_id m p
          env.block_timestamp_ms
          (env.block_timestamp_ms + c.attestation_expiration_time_ms)],
        true) := by
    simp [register_agent, hdep, hver]
  refine ⟨h1, ?_, ?_, ?_⟩
  · rw [h1]
    exact mapGet_insert_self _ _ _
  · intro a ha
    rw [h1]
    exact mapGet_insert_ne _ _ ha
  · intro env2 a acc own2 m2 ps2 t2 p2 pl2 k2
    exact ⟨agents_of_update_attestation_expiration_time env2 t2 c,
      agents_of_update_owner_id env2 own2 c,
      agents_of_update_mpc_contract_id env2 own2 c,
      agents_of_approve_measurements env2 m2 c,
      agents_of_remove_measurements env2 m2 c,
      agents_of_approve_ppids env2 ps2 c,
      agents_of_remove_ppids env2 ps2 c,
      agents_of_whitelist_agent_for_local env2 acc c,
      agents_of_remove_agent_from_whitelist_for_local env2 acc c,
      agents_of_remove_agent env2 acc c a,
      agents_of_request_signature env2 p2 pl2 k2 c a⟩

/-- Witness for C6: a concrete registration stores `valid_until = 700 +
1000`. -/
theorem c6_register_sets_valid_until_witness :
    mapGet (commit cB (register_agent verifyOk envRich cB)).agents
        envRich.predecessor_account_id =
      some (Agent.mk m0 p0 (envRich.block_timestamp_ms +
        cB.attestation_expiration_time_ms)) :=
  (c6_register_sets_valid_until verifyOk envRich cB m0 p0 rfl
    (by decide)).2.1

end Shade

namespace AgentTemplate

open Shade (FullMeasurements Ppid Env ContractError)

/-- C10: in TEE mode the earlier template's `register_agent` fails before
any attestation verification whenever the caller's account id is not a
64-character lowercase-hex implicit account: the result does not depend on
the verifier at all, it is an error, and no verifier can make it succeed. -/
theorem c10_implicit_account_gate
    (verify1 verify2 : List Nat → Nat → List FullMeasurements → List Ppid →
      Except ContractError FullMeasurements)
    (env : Env) (c : Contract) (htee : c.requires_tee = true)
    (himp : isImplicitAccount env.predecessor_account_id = false) :
    register_agent verify1 env c = register_agent verify2 env c ∧
    (∃ e, register_agent verify1 env c = .error e) ∧
    (∀ verify3 r, register_agent verify3 env c ≠ .ok r) := by
  cases hg : Shade.mapGet c.agents env.predecessor_account_id with
  | none =>
      refine ⟨?_, ⟨.AgentNotWhitelisted, ?_⟩, ?_⟩ <;>
        simp [register_agent, hg]
  | some v =>
      refine ⟨?_, ⟨.AccountNotImplicit, ?_⟩, ?_⟩ <;>
        simp [register_agent, hg, htee, himp]

/-- Witness for C10: the named account `alice.near` cannot register in TEE
mode, whatever the attestation verifier would say. -/
theorem c10_implicit_account_gate_witness :
    register_agent verifyA envAlice cAT = register_agent verifyB envAlice cAT ∧
    (∃ e, register_agent verifyA envAlice cAT = .error e) :=
  let h := c10_implicit_account_gate verifyA verifyB envAlice cAT
    (by decide) (by decide)
  ⟨h.1, h.2.1⟩

end AgentTemplate
